import Mathlib

/-! ## sqly: typed and dynamic query helpers over database/sql

A shallow embedding of `sqly.go`.  The library functions are translated
one for one; the `database/sql` collaborators they drive (the database
handle, the row cursor, the single-row cursor) are external to the
repository and are modelled by the capabilities the library relies on.
Every call the library makes on a cursor is recorded in a trace, so that
statements about the order and number of those calls can be made.
-/

namespace Sqly

/-! ## Errors and values -/

/-- Go `error` values that can reach the library.  `ErrNoRows` is the
distinguished `sql.ErrNoRows`; `argCount`, `notPointer` and `convert` are the
failures of the scan primitive that depend on the destinations (their number,
a destination that is no pointer, a column value that does not convert to the
type of its destination); `other` stands for every remaining driver or caller
error. -/
inductive Error where
  | ErrNoRows
  | argCount (want got : Nat)
  | notPointer
  | convert (column : Nat)
  | other (code : Nat)
  deriving DecidableEq, Repr

/-- Go `any` as far as `ExecuteDynamicQuery` needs it: the nil interface,
a value produced by the driver, or a pointer to one of the `var v any`
cells allocated for scanning. -/
inductive GoAny (V : Type) where
  | nil
  | val (v : V)
  | ptr (cell : Nat)
  deriving DecidableEq, Repr

/-- `context.Context`; only `context.Background()` is named by the library. -/
inductive Context where
  | background
  | other (id : Nat)
  deriving DecidableEq, Repr

/-! ## The database/sql collaborators -/

/-- Scanner is the interface `{ Scan(dest ...any) error }`.  A scanner is
represented by what its `Scan` has to offer: the column values of the row it
is positioned on, or the error `Scan` reports. -/
abbrev Scanner (V : Type) := Except Error (List V)

/-- Modelled from the spec: the row cursor `*sql.Rows` of database/sql
("advance to next row / report exhaustion", "scan current row into N
destination slots", "terminal error after exhaustion", "release", ordered
column names).  `pending` are the rows `Next` will still deliver, each as the
scanner the cursor presents while positioned on it. -/
structure Rows (V : Type) where
  columns : Except Error (List String)
  pending : List (Scanner V)
  err : Option Error

/-- Modelled from the spec: the single-row cursor `*sql.Row` of database/sql:
the cursor of the same query together with the issuance error, both consulted
only when `Scan` is called. -/
structure Row (V : Type) where
  err : Option Error
  rows : Rows V

/-- Modelled from the spec: what `(*sql.Row).Scan` offers: the issuance error
if there is one; on an exhausted cursor its terminal error or else the
distinguished `ErrNoRows`; otherwise the first row. -/
def Row.scanner {V : Type} (r : Row V) : Scanner V :=
  match r.err with
  | some e => .error e
  | none =>
    match r.rows.pending with
    | [] =>
      match r.rows.err with
      | some e => .error e
      | none => .error Error.ErrNoRows
    | x :: _ => x

/-- Modelled from the spec: the database handle `*sql.DB`: "run query with
args, get row cursor". -/
structure DB (V : Type) where
  QueryContext : Context → String → List V → Except Error (Rows V)

/-- Modelled from the spec: `(*sql.DB).QueryRowContext`, "run query with args,
get single-row cursor": it issues the query and defers the issuance error to
`Scan`. -/
def DB.QueryRowContext {V : Type} (db : DB V) (ctx : Context) (query : String)
    (args : List V) : Row V :=
  match db.QueryContext ctx query args with
  | .ok rows => ⟨none, rows⟩
  | .error e => ⟨some e, ⟨.ok [], [], none⟩⟩

/-- Modelled from the spec: a prepared statement `*sql.Stmt`, a handle "with
the same query capabilities" whose query text is fixed. -/
structure Stmt (V : Type) where
  QueryContext : Context → List V → Except Error (Rows V)

/-- Modelled from the spec: `(*sql.Stmt).QueryRowContext`. -/
def Stmt.QueryRowContext {V : Type} (stmt : Stmt V) (ctx : Context)
    (args : List V) : Row V :=
  match stmt.QueryContext ctx args with
  | .ok rows => ⟨none, rows⟩
  | .error e => ⟨some e, ⟨.ok [], [], none⟩⟩

/-! ## Traces -/

/-- One call made by the library on the cursor it owns, or one invocation of
the caller's callback on the current row. -/
inductive Event (V : Type) where
  | columns
  | next
  | populate (row : Scanner V)
  | scan (row : Scanner V)
  | err
  | close

/-- Is the event a call of `rows.Close()`? -/
def Event.isClose {V : Type} : Event V → Bool
  | .close => true
  | _ => false

/-- Is the event a call of `rows.Err()`? -/
def Event.isErr {V : Type} : Event V → Bool
  | .err => true
  | _ => false

/-- The row handed to the callback or to `rows.Scan`, if the event is one. -/
def Event.scanned? {V : Type} : Event V → Option (Scanner V)
  | .populate r => some r
  | .scan r => some r
  | _ => none

/-- Number of `rows.Close()` calls in a trace. -/
def closeCount {V : Type} (tr : List (Event V)) : Nat :=
  (tr.filter Event.isClose).length

/-- The rows scanned in a trace, in order. -/
def scannedRows {V : Type} (tr : List (Event V)) : List (Scanner V) :=
  tr.filterMap Event.scanned?

/-- Results, error and trace of one library call. -/
structure Outcome (V R : Type) where
  results : R
  err : Option Error
  trace : List (Event V)

/-! ## Typed query executor (sqly.go, lines 45-119) -/

/-- ScanCallback is `func(row Scanner, entity *T) error`: from the scanner and
the current value of the entity to the entity as the callback leaves it and
the error it returns. -/
abbrev ScanCallback (V T : Type) := Scanner V → T → T × Option Error

/-- The loop `for rows.Next() { ... }` of `execQuery` followed by
`err = rows.Err()`; `results` is the named result accumulated so far. -/
def execQuery.loop {V T : Type} [Inhabited T] (scan : ScanCallback V T)
    (termErr : Option Error) :
    List (Scanner V) → List T → List T × Option Error × List (Event V)
  | [], results => (results, termErr, [.next, .err])
  | r :: rest, results =>
    match scan r default with
    | (_, some e) => (results, some e, [.next, .populate r])
    | (entity, none) =>
      let out := execQuery.loop scan termErr rest (results ++ [entity])
      (out.1, out.2.1, .next :: .populate r :: out.2.2)

/-- The function `execQuery`: `defer rows.Close()`, the loop, the bare return. -/
def execQuery {V T : Type} [Inhabited T] (rows : Rows V) (scan : ScanCallback V T) :
    Outcome V (List T) :=
  let out := execQuery.loop scan rows.err rows.pending []
  ⟨out.1, out.2.1, out.2.2 ++ [.close]⟩

/-- The function `QueryContext`. -/
def QueryContext {V T : Type} [Inhabited T] (db : DB V) (ctx : Context) (query : String)
    (scan : ScanCallback V T) (args : List V) : Outcome V (List T) :=
  match db.QueryContext ctx query args with
  | .error e => ⟨[], some e, []⟩
  | .ok rows => execQuery rows scan

/-- The function `Query`. -/
def Query {V T : Type} [Inhabited T] (db : DB V) (query : String)
    (scan : ScanCallback V T) (args : List V) : Outcome V (List T) :=
  QueryContext db .background query scan args

/-- The function `QueryStatementContext`. -/
def QueryStatementContext {V T : Type} [Inhabited T] (stmt : Stmt V) (ctx : Context)
    (scan : ScanCallback V T) (args : List V) : Outcome V (List T) :=
  match stmt.QueryContext ctx args with
  | .error e => ⟨[], some e, []⟩
  | .ok rows => execQuery rows scan

/-- The function `QueryStatement`. -/
def QueryStatement {V T : Type} [Inhabited T] (stmt : Stmt V)
    (scan : ScanCallback V T) (args : List V) : Outcome V (List T) :=
  QueryStatementContext stmt .background scan args

/-- The function `execQueryRow`: `entity = new(T); err = scan(row, entity)`.
The returned `*T` is `none` for a nil pointer and `some v` for a pointer to
`v`. -/
def execQueryRow {V T : Type} [Inhabited T] (row : Row V) (scan : ScanCallback V T) :
    Option T × Option Error :=
  let entity : T := default
  let out := scan row.scanner entity
  (some out.1, out.2)

/-- The function `QueryRowContext`. -/
def QueryRowContext {V T : Type} [Inhabited T] (db : DB V) (ctx : Context) (query : String)
    (scan : ScanCallback V T) (args : List V) : Option T × Option Error :=
  execQueryRow (db.QueryRowContext ctx query args) scan

/-- The function `QueryRow`. -/
def QueryRow {V T : Type} [Inhabited T] (db : DB V) (query : String)
    (scan : ScanCallback V T) (args : List V) : Option T × Option Error :=
  QueryRowContext db .background query scan args

/-- The function `QueryRowStatementContext`. -/
def QueryRowStatementContext {V T : Type} [Inhabited T] (stmt : Stmt V) (ctx : Context)
    (scan : ScanCallback V T) (args : List V) : Option T × Option Error :=
  execQueryRow (stmt.QueryRowContext ctx args) scan

/-- The function `QueryRowStatement`. -/
def QueryRowStatement {V T : Type} [Inhabited T] (stmt : Stmt V)
    (scan : ScanCallback V T) (args : List V) : Option T × Option Error :=
  QueryRowStatementContext stmt .background scan args

/-! ## Dynamic row materializer (sqly.go, lines 121-161) -/

/-- Go `map[string]any`, kept as an association list; `GoMap.set` keeps the
keys pairwise distinct. -/
abbrev GoMap (V : Type) := List (String × GoAny V)

/-- The assignment `m[k] = v`. -/
def GoMap.set {V : Type} : GoMap V → String → GoAny V → GoMap V
  | [], k, v => [(k, v)]
  | (k', v') :: rest, k, v =>
    if k' = k then (k, v) :: rest else (k', v') :: GoMap.set rest k v

/-- The lookup `m[k]` with its presence flag. -/
def GoMap.get? {V : Type} : GoMap V → String → Option (GoAny V)
  | [], _ => none
  | (k', v') :: rest, k => if k' = k then some v' else GoMap.get? rest k

/-- The keys of the map. -/
def GoMap.keys {V : Type} (m : GoMap V) : List String := m.map Prod.fst

/-- The builtin `len(m)`. -/
def GoMap.len {V : Type} (m : GoMap V) : Nat := m.length

/-- Modelled from the spec: the scan primitive storing the values of the
current row through the destinations, one after the other.  `cells` are the
`var v any` variables the destinations may point to; a destination that is not
a pointer is refused. -/
def assign {V : Type} : List (GoAny V) → List V → List (GoAny V) → Except Error (List (GoAny V))
  | [], _, cells => .ok cells
  | .ptr i :: dest, x :: xs, cells => assign dest xs (cells.set i (.val x))
  | _ :: _, _, _ => .error Error.notPointer

/-- Modelled from the spec: `(*sql.Rows).Scan(dest...)`, "scan current row
into N destination slots": the scanner's own error, a count mismatch between
destinations and columns, or the assignment. -/
def Rows.Scan {V : Type} (cur : Scanner V) (dest : List (GoAny V)) (cells : List (GoAny V)) :
    Except Error (List (GoAny V)) :=
  match cur with
  | .error e => .error e
  | .ok vals =>
    if dest.length ≠ vals.length then .error (Error.argCount vals.length dest.length)
    else assign dest vals cells

/-- The expression `reflect.Indirect(reflect.ValueOf(a)).Interface()`: the
content of the cell when `a` is a pointer, `a` itself otherwise. -/
def indirect {V : Type} (cells : List (GoAny V)) : GoAny V → GoAny V
  | .ptr i => cells.getD i .nil
  | a => a

/-- The loop `for i, col := range columnNames { row[col] = ... values[i] ... }`
from index `i` on. -/
def fillRow {V : Type} (values cells : List (GoAny V)) :
    Nat → List String → GoMap V → GoMap V
  | _, [], row => row
  | i, col :: cols, row =>
    fillRow values cells (i + 1) cols
      (GoMap.set row col (indirect cells (values.getD i .nil)))

/-- The loop `for rows.Next() { ... }` of `ExecuteDynamicQuery` followed by
`err = rows.Err()`; `res` is the named result accumulated so far. -/
def ExecuteDynamicQuery.loop {V : Type} (columnNames : List String) (values : List (GoAny V))
    (termErr : Option Error) :
    List (Scanner V) → List (GoAny V) → List (GoMap V) →
      List (GoMap V) × Option Error × List (Event V)
  | [], _, res => (res, termErr, [.next, .err])
  | r :: rest, cells, res =>
    match Rows.Scan r values cells with
    | .error e => (res, some e, [.next, .scan r])
    | .ok cells' =>
      let row := fillRow values cells' 0 columnNames []
      let out := ExecuteDynamicQuery.loop columnNames values termErr rest cells' (res ++ [row])
      (out.1, out.2.1, .next :: .scan r :: out.2.2)

/-- The function `ExecuteDynamicQuery`. -/
def ExecuteDynamicQuery {V : Type} (db : DB V) (query : String) (args : List V) :
    Outcome V (List (GoMap V)) :=
  match db.QueryContext .background query args with
  | .error e => ⟨[], some e, []⟩
  | .ok rows =>
    match rows.columns with
    | .error e => ⟨[], some e, [.columns, .close]⟩
    | .ok columnNames =>
      let values : List (GoAny V) := (List.range columnNames.length).map GoAny.ptr
      let cells : List (GoAny V) := List.replicate columnNames.length GoAny.nil
      let out := ExecuteDynamicQuery.loop columnNames values rows.err rows.pending cells []
      ⟨out.1, out.2.1, .columns :: out.2.2 ++ [.close]⟩

/-- The trace of a loop that consumes every given row: `Next`, then the event
`mk` builds for the row, for each row in turn. -/
def steps {V : Type} (mk : Scanner V → Event V) : List (Scanner V) → List (Event V)
  | [] => []
  | r :: rest => .next :: mk r :: steps mk rest

/-- The mapping built by assigning, in column order, each column name the
value scanned for that column. -/
def rowOf {V : Type} (cols : List String) (vals : List V) : GoMap V :=
  (cols.zip (vals.map GoAny.val)).foldl (fun m p => GoMap.set m p.1 p.2) []

/-! ## Sample data: the `test` table of the test suite -/

/-- The values a driver hands over for the `test` table: integers, text and
NULL. -/
inductive Cell where
  | int (n : Int)
  | text (s : String)
  | null
  deriving DecidableEq, Repr

/-- The struct `Person` of sqly_test.go. -/
structure Person where
  ID : Int
  FirstName : String
  LastName : String
  Email : String
  deriving DecidableEq, Repr

instance : Inhabited Person := ⟨⟨0, "", "", ""⟩⟩

/-- The range check of an `int64` destination. -/
def inInt64 (n : Int) : Option Int :=
  if -9223372036854775808 ≤ n ∧ n ≤ 9223372036854775807 then some n else none

/-- Decimal text as `strconv.ParseInt(s, 10, 64)` reads it: an optional sign,
then digits only, the value within the range of `int64`. -/
def parseInt64 (s : String) : Option Int :=
  match s.toList with
  | '+' :: ds => (String.mk ds).toNat?.bind (fun n => inInt64 (Int.ofNat n))
  | '-' :: ds => (String.mk ds).toNat?.bind (fun n => inInt64 (-(Int.ofNat n)))
  | _ => s.toNat?.bind (fun n => inInt64 (Int.ofNat n))

/-- Conversion of a column value to an `int64` destination: an integer of the
driver as it is, text parsed as a decimal `int64`, NULL refused. -/
def asInt64 : Cell → Option Int
  | .int n => some n
  | .text s => parseInt64 s
  | .null => none

/-- Conversion of a column value to a `string` destination: text as it is, an
integer in decimal, NULL refused. -/
def asString : Cell → Option String
  | .int n => some (toString n)
  | .text s => some s
  | .null => none

/-- The callback `scan` of sqly_test.go: `return row.Scan(&p.ID, &p.FirstName,
&p.LastName, &p.Email)`.  The destinations are assigned in order and the first
column that does not convert ends the scan with an error. -/
def scanPerson : ScanCallback Cell Person
  | .error e, p => (p, some e)
  | .ok [c0, c1, c2, c3], p =>
    match asInt64 c0 with
    | none => (p, some (Error.convert 0))
    | some id =>
      match asString c1 with
      | none => ({ p with ID := id }, some (Error.convert 1))
      | some f =>
        match asString c2 with
        | none => ({ p with ID := id, FirstName := f }, some (Error.convert 2))
        | some l =>
          match asString c3 with
          | none =>
            ({ p with ID := id, FirstName := f, LastName := l }, some (Error.convert 3))
          | some e => (⟨id, f, l, e⟩, none)
  | .ok vals, p => (p, some (Error.argCount vals.length 4))

/-- Row `i` of the `test` table as `insertRows` of main_test.go fills it. -/
def testRow (i : Nat) : Scanner Cell :=
  .ok [.int (i + 1), .text ("fname_" ++ toString i), .text ("lname_" ++ toString i),
       .text ("email_" ++ toString i)]

/-- A cursor over the first `n` rows of the `test` table. -/
def testRows (n : Nat) : Rows Cell :=
  ⟨.ok ["id", "fname", "lname", "email"], (List.range n).map testRow, none⟩

/-- A cursor over three rows of the `test` table whose second row has NULL
for `fname`, so that `scanPerson` fails on it. -/
def nullInSecondRow : Rows Cell :=
  ⟨.ok ["id", "fname", "lname", "email"],
    [testRow 0, .ok [.int 2, .null, .text "lname_1", .text "email_1"], testRow 2], none⟩

/-- A callback that scans like `scanPerson` but drops the error of `Scan` and
returns nil. -/
def scanIgnoringError : ScanCallback Cell Person :=
  fun row p => ((scanPerson row p).1, none)

/-- A cursor with two columns of the same name, as an unaliased join such as
`SELECT a.id, b.id FROM test a, test b` reports them, and one row. -/
def dupColumns : Rows Cell :=
  ⟨.ok ["id", "id"], [.ok [.int 1, .int 2]], none⟩

/-- A cursor over the first `n` rows of the `test` table that reports the
error `e` once exhausted. -/
def testRowsThenError (n : Nat) (e : Error) : Rows Cell :=
  ⟨.ok ["id", "fname", "lname", "email"], (List.range n).map testRow, some e⟩

/-- The mapping of row 0 of the `test` table. -/
def firstRowMap : GoMap Cell :=
  [("id", .val (.int 1)), ("fname", .val (.text "fname_0")),
   ("lname", .val (.text "lname_0")), ("email", .val (.text "email_0"))]

/-- A database handle answering every query with the given cursor. -/
def constDB {V : Type} (rows : Rows V) : DB V := ⟨fun _ _ _ => .ok rows⟩

/-- A statement handle answering every query with the given cursor. -/
def constStmt {V : Type} (rows : Rows V) : Stmt V := ⟨fun _ _ => .ok rows⟩

/-- A database handle on which issuing any query fails. -/
def failDB (V : Type) (e : Error) : DB V := ⟨fun _ _ _ => .error e⟩


/-! ## Lemmas on traces -/

theorem closeCount_append {V : Type} (a b : List (Event V)) :
    closeCount (a ++ b) = closeCount a + closeCount b := by
  simp [closeCount]

theorem closeCount_steps {V : Type} (mk : Scanner V → Event V)
    (hmk : ∀ r, (mk r).isClose = false) (l : List (Scanner V)) :
    closeCount (steps mk l) = 0 := by
  induction l with
  | nil => rfl
  | cons r rest ih =>
    have hn : (Event.next : Event V).isClose = false := rfl
    simp only [closeCount] at ih
    simp [steps, closeCount, List.filter_cons, hn, hmk, ih]

theorem scannedRows_append {V : Type} (a b : List (Event V)) :
    scannedRows (a ++ b) = scannedRows a ++ scannedRows b := by
  simp [scannedRows]

theorem scannedRows_steps {V : Type} (mk : Scanner V → Event V)
    (hmk : ∀ r, (mk r).scanned? = some r) (l : List (Scanner V)) :
    scannedRows (steps mk l) = l := by
  induction l with
  | nil => rfl
  | cons r rest ih =>
    have hn : (Event.next : Event V).scanned? = none := rfl
    simp only [scannedRows] at ih
    simp [steps, scannedRows, List.filterMap_cons, hn, hmk, ih]

theorem isErr_steps {V : Type} (mk : Scanner V → Event V)
    (hmk : ∀ r, (mk r).isErr = false) (l : List (Scanner V)) :
    ∀ ev ∈ steps mk l, ev.isErr = false := by
  induction l with
  | nil => simp [steps]
  | cons r rest ih =>
    intro ev hev
    simp only [steps, List.mem_cons] at hev
    rcases hev with h | h | h
    · subst h; rfl
    · subst h; exact hmk r
    · exact ih ev h

/-! ## Lemmas on the loop of execQuery -/

/-- A loop over rows on which the callback succeeds runs to exhaustion. -/
theorem execQuery_loop_all {V T : Type} [Inhabited T] (scan : ScanCallback V T)
    (termErr : Option Error) (pending : List (Scanner V)) (results : List T)
    (hok : ∀ r ∈ pending, (scan r default).2 = none) :
    execQuery.loop scan termErr pending results =
      (results ++ pending.map (fun r => (scan r default).1), termErr,
        steps Event.populate pending ++ [.next, .err]) := by
  induction pending generalizing results with
  | nil => simp [execQuery.loop, steps]
  | cons r rest ih =>
    have hr : (scan r default).2 = none := hok r (List.mem_cons_self _ _)
    have hrest : ∀ x ∈ rest, (scan x default).2 = none :=
      fun x hx => hok x (List.mem_cons_of_mem _ hx)
    cases hs : scan r default with
    | mk entity e =>
      rw [hs] at hr
      simp only at hr
      subst hr
      simp [execQuery.loop, hs, ih _ hrest, steps]

/-- A loop stops at the first row on which the callback fails. -/
theorem execQuery_loop_stop {V T : Type} [Inhabited T] (scan : ScanCallback V T)
    (termErr : Option Error) (pre : List (Scanner V)) (r : Scanner V)
    (post : List (Scanner V)) (results : List T) (e : Error)
    (hok : ∀ x ∈ pre, (scan x default).2 = none)
    (hfail : (scan r default).2 = some e) :
    execQuery.loop scan termErr (pre ++ r :: post) results =
      (results ++ pre.map (fun x => (scan x default).1), some e,
        steps Event.populate pre ++ [.next, .populate r]) := by
  induction pre generalizing results with
  | nil =>
    cases hs : scan r default with
    | mk entity e' =>
      rw [hs] at hfail
      simp only at hfail
      subst hfail
      simp [execQuery.loop, hs, steps]
  | cons x rest ih =>
    have hx : (scan x default).2 = none := hok x (List.mem_cons_self _ _)
    have hrest : ∀ y ∈ rest, (scan y default).2 = none :=
      fun y hy => hok y (List.mem_cons_of_mem _ hy)
    cases hs : scan x default with
    | mk entity e' =>
      rw [hs] at hx
      simp only at hx
      subst hx
      simp [execQuery.loop, hs, ih _ hrest, steps]

/-- The loop of execQuery never closes the cursor itself. -/
theorem execQuery_loop_closeCount {V T : Type} [Inhabited T] (scan : ScanCallback V T)
    (termErr : Option Error) (pending : List (Scanner V)) (results : List T) :
    closeCount (execQuery.loop scan termErr pending results).2.2 = 0 := by
  induction pending generalizing results with
  | nil => simp [execQuery.loop, closeCount, Event.isClose]
  | cons r rest ih =>
    cases hs : scan r default with
    | mk entity e =>
      cases e with
      | some e => simp [execQuery.loop, hs, closeCount, Event.isClose]
      | none =>
        have := ih (results ++ [entity])
        simp only [closeCount] at this
        simp [execQuery.loop, hs, closeCount, List.filter, Event.isClose, this]


/-- The results of the loop extend the results accumulated before it. -/
theorem execQuery_loop_extends {V T : Type} [Inhabited T] (scan : ScanCallback V T)
    (termErr : Option Error) (pending : List (Scanner V)) (results : List T) :
    ∃ l, (execQuery.loop scan termErr pending results).1 = results ++ l := by
  induction pending generalizing results with
  | nil => exact ⟨[], by simp [execQuery.loop]⟩
  | cons r rest ih =>
    cases hs : scan r default with
    | mk entity e =>
      cases e with
      | some e => exact ⟨[], by simp [execQuery.loop, hs]⟩
      | none =>
        obtain ⟨l, hl⟩ := ih (results ++ [entity])
        exact ⟨entity :: l, by simp [execQuery.loop, hs, hl]⟩

/-- A loop that ends without error has succeeded on its first row, and the
value of that row is the first result. -/
theorem execQuery_loop_head {V T : Type} [Inhabited T] (scan : ScanCallback V T)
    (termErr : Option Error) (r : Scanner V) (rest : List (Scanner V))
    (h : (execQuery.loop scan termErr (r :: rest) []).2.1 = none) :
    (scan r default).2 = none ∧
      (execQuery.loop scan termErr (r :: rest) []).1[0]? = some (scan r default).1 := by
  cases hs : scan r default with
  | mk entity e =>
    cases e with
    | some e => simp [execQuery.loop, hs] at h
    | none =>
      obtain ⟨l, hl⟩ := execQuery_loop_extends scan termErr rest ([] ++ [entity])
      simp only [List.nil_append] at hl
      simp [execQuery.loop, hs, hl]

/-- Each public multi-row operation returns what `execQuery` returns on the
cursor that issuing the query yields. -/
theorem multi_row_via_execQuery {V T : Type} [Inhabited T] (rows : Rows V)
    (scan : ScanCallback V T) :
    (∀ (db : DB V) (ctx : Context) (q : String) (args : List V),
      db.QueryContext ctx q args = .ok rows →
        QueryContext db ctx q scan args = execQuery rows scan) ∧
    (∀ (db : DB V) (q : String) (args : List V),
      db.QueryContext .background q args = .ok rows →
        Query db q scan args = execQuery rows scan) ∧
    (∀ (stmt : Stmt V) (ctx : Context) (args : List V),
      stmt.QueryContext ctx args = .ok rows →
        QueryStatementContext stmt ctx scan args = execQuery rows scan) ∧
    (∀ (stmt : Stmt V) (args : List V),
      stmt.QueryContext .background args = .ok rows →
        QueryStatement stmt scan args = execQuery rows scan) := by
  refine ⟨?_, ?_, ?_, ?_⟩
  · intro db ctx q args h
    simp [QueryContext, h]
  · intro db q args h
    simp [Query, QueryContext, h]
  · intro stmt ctx args h
    simp [QueryStatementContext, h]
  · intro stmt args h
    simp [QueryStatement, QueryStatementContext, h]

/-! ## Typed query executor: the claims -/

/-- C1: when the cursor delivers its rows without a terminal error and the
callback succeeds on each of them, `execQuery` returns no error and exactly one
element per row, in delivery order, each the value the callback produces from
that row starting from the zero value of `T` (so the empty sequence for no
rows); `Query`, `QueryContext`, `QueryStatement` and `QueryStatementContext`
return what `execQuery` returns on the cursor they obtain. -/
theorem execQuery_returns_every_row {V T : Type} [Inhabited T] (rows : Rows V)
    (scan : ScanCallback V T) (hterm : rows.err = none)
    (hok : ∀ r ∈ rows.pending, (scan r default).2 = none) :
    (execQuery rows scan).err = none ∧
    (execQuery rows scan).results = rows.pending.map (fun r => (scan r default).1) ∧
    (execQuery rows scan).results.length = rows.pending.length ∧
    (∀ (db : DB V) (ctx : Context) (q : String) (args : List V),
      db.QueryContext ctx q args = .ok rows →
        QueryContext db ctx q scan args = execQuery rows scan) ∧
    (∀ (db : DB V) (q : String) (args : List V),
      db.QueryContext .background q args = .ok rows →
        Query db q scan args = execQuery rows scan) ∧
    (∀ (stmt : Stmt V) (ctx : Context) (args : List V),
      stmt.QueryContext ctx args = .ok rows →
        QueryStatementContext stmt ctx scan args = execQuery rows scan) ∧
    (∀ (stmt : Stmt V) (args : List V),
      stmt.QueryContext .background args = .ok rows →
        QueryStatement stmt scan args = execQuery rows scan) := by
  have hl := execQuery_loop_all scan rows.err rows.pending [] hok
  refine ⟨?_, ?_, ?_, ?_, ?_, ?_, ?_⟩
  · simp [execQuery, hl]; exact hterm
  · simp [execQuery, hl]
  · simp [execQuery, hl]
  · intro db ctx q args h
    simp [QueryContext, h]
  · intro db q args h
    simp [Query, QueryContext, h]
  · intro stmt ctx args h
    simp [QueryStatementContext, h]
  · intro stmt args h
    simp [QueryStatement, QueryStatementContext, h]

/-- C1 at the `test` table with three rows and the callback of the test suite. -/
theorem execQuery_returns_every_row_witness :
    (execQuery (testRows 3) scanPerson).err = none ∧
    (execQuery (testRows 3) scanPerson).results.length = 3 :=
  have h := execQuery_returns_every_row (testRows 3) scanPerson rfl (by decide)
  ⟨h.1, h.2.2.1⟩

/-- C3: when the callback succeeds on the rows before row K (`pre`) and returns
the error `e` on row K (`r`), `execQuery` returns exactly `e`; the callback has
been invoked on rows 1..K and on no later row, `rows.Err()` has not been
called, and the trace is the K steps followed by the deferred close.  The same
holds of `QueryContext`, `Query`, `QueryStatementContext` and `QueryStatement`
on a handle that answers the query with that cursor. -/
theorem execQuery_stops_at_failing_row {V T : Type} [Inhabited T] (rows : Rows V)
    (scan : ScanCallback V T) (pre : List (Scanner V)) (r : Scanner V)
    (post : List (Scanner V)) (e : Error)
    (hrows : rows.pending = pre ++ r :: post)
    (hok : ∀ x ∈ pre, (scan x default).2 = none)
    (hfail : (scan r default).2 = some e) :
    (execQuery rows scan).err = some e ∧
    scannedRows (execQuery rows scan).trace = pre ++ [r] ∧
    (scannedRows (execQuery rows scan).trace).length = pre.length + 1 ∧
    (∀ ev ∈ (execQuery rows scan).trace, ev.isErr = false) ∧
    (execQuery rows scan).trace =
      steps Event.populate pre ++ [.next, .populate r, .close] ∧
    (∀ (db : DB V) (ctx : Context) (q : String) (args : List V),
      db.QueryContext ctx q args = .ok rows →
        (QueryContext db ctx q scan args).err = some e ∧
        scannedRows (QueryContext db ctx q scan args).trace = pre ++ [r] ∧
        (∀ ev ∈ (QueryContext db ctx q scan args).trace, ev.isErr = false) ∧
        (QueryContext db ctx q scan args).trace =
          steps Event.populate pre ++ [.next, .populate r, .close]) ∧
    (∀ (db : DB V) (q : String) (args : List V),
      db.QueryContext .background q args = .ok rows →
        (Query db q scan args).err = some e ∧
        scannedRows (Query db q scan args).trace = pre ++ [r] ∧
        (∀ ev ∈ (Query db q scan args).trace, ev.isErr = false) ∧
        (Query db q scan args).trace =
          steps Event.populate pre ++ [.next, .populate r, .close]) ∧
    (∀ (stmt : Stmt V) (ctx : Context) (args : List V),
      stmt.QueryContext ctx args = .ok rows →
        (QueryStatementContext stmt ctx scan args).err = some e ∧
        scannedRows (QueryStatementContext stmt ctx scan args).trace = pre ++ [r] ∧
        (∀ ev ∈ (QueryStatementContext stmt ctx scan args).trace, ev.isErr = false) ∧
        (QueryStatementContext stmt ctx scan args).trace =
          steps Event.populate pre ++ [.next, .populate r, .close]) ∧
    (∀ (stmt : Stmt V) (args : List V),
      stmt.QueryContext .background args = .ok rows →
        (QueryStatement stmt scan args).err = some e ∧
        scannedRows (QueryStatement stmt scan args).trace = pre ++ [r] ∧
        (∀ ev ∈ (QueryStatement stmt scan args).trace, ev.isErr = false) ∧
        (QueryStatement stmt scan args).trace =
          steps Event.populate pre ++ [.next, .populate r, .close]) := by
  have hl := execQuery_loop_stop scan rows.err pre r post [] e hok hfail
  have htr : (execQuery rows scan).trace =
      steps Event.populate pre ++ [.next, .populate r, .close] := by
    simp [execQuery, hrows, hl]
  have hsc : scannedRows (execQuery rows scan).trace = pre ++ [r] := by
    rw [htr, scannedRows_append, scannedRows_steps Event.populate (fun _ => rfl)]
    rfl
  have herr : (execQuery rows scan).err = some e := by
    simp [execQuery, hrows, hl]
  have hne : ∀ ev ∈ (execQuery rows scan).trace, ev.isErr = false := by
    intro ev hev
    rw [htr, List.mem_append] at hev
    rcases hev with h | h
    · exact isErr_steps Event.populate (fun _ => rfl) pre ev h
    · simp only [List.mem_cons, List.mem_singleton, List.not_mem_nil, or_false] at h
      rcases h with h | h | h <;> subst h <;> rfl
  obtain ⟨w1, w2, w3, w4⟩ := multi_row_via_execQuery rows scan
  refine ⟨herr, hsc, ?_, hne, htr, ?_, ?_, ?_, ?_⟩
  · rw [hsc]; simp
  · intro db ctx q args h
    rw [w1 db ctx q args h]
    exact ⟨herr, hsc, hne, htr⟩
  · intro db q args h
    rw [w2 db q args h]
    exact ⟨herr, hsc, hne, htr⟩
  · intro stmt ctx args h
    rw [w3 stmt ctx args h]
    exact ⟨herr, hsc, hne, htr⟩
  · intro stmt args h
    rw [w4 stmt args h]
    exact ⟨herr, hsc, hne, htr⟩

/-- C3 at a cursor whose second of three rows makes the callback fail: the
helper and the public `Query` return the conversion error after two
invocations of the callback. -/
theorem execQuery_stops_at_failing_row_witness :
    (execQuery nullInSecondRow scanPerson).err = some (Error.convert 1) ∧
    scannedRows (execQuery nullInSecondRow scanPerson).trace =
      [testRow 0] ++ [.ok [.int 2, .null, .text "lname_1", .text "email_1"]] ∧
    (Query (constDB nullInSecondRow) "SELECT * FROM test;" scanPerson []).err =
      some (Error.convert 1) ∧
    scannedRows (Query (constDB nullInSecondRow) "SELECT * FROM test;" scanPerson []).trace =
      [testRow 0] ++ [.ok [.int 2, .null, .text "lname_1", .text "email_1"]] :=
  have h := execQuery_stops_at_failing_row nullInSecondRow scanPerson [testRow 0]
    (.ok [.int 2, .null, .text "lname_1", .text "email_1"]) [testRow 2] (Error.convert 1)
    rfl (by decide) (by decide)
  have hq := h.2.2.2.2.2.2.1 (constDB nullInSecondRow) "SELECT * FROM test;" [] rfl
  ⟨h.1, h.2.1, hq.1, hq.2.1⟩

/-- C9, as stated, fails: on a cursor whose second row makes the callback
fail, `execQuery` and the public `Query` return the error together with the
value of the first row, not an empty sequence. -/
theorem execQuery_failure_keeps_rows_example :
    (execQuery nullInSecondRow scanPerson).err = some (Error.convert 1) ∧
    (execQuery nullInSecondRow scanPerson).results =
      [⟨1, "fname_0", "lname_0", "email_0"⟩] ∧
    (execQuery nullInSecondRow scanPerson).results ≠ [] ∧
    (Query (constDB nullInSecondRow) "SELECT * FROM test;" scanPerson []).err =
      some (Error.convert 1) ∧
    (Query (constDB nullInSecondRow) "SELECT * FROM test;" scanPerson []).results =
      [⟨1, "fname_0", "lname_0", "email_0"⟩] ∧
    (Query (constDB nullInSecondRow) "SELECT * FROM test;" scanPerson []).results ≠ [] := by
  decide

/-- C9, amended: when the callback fails on row K, the sequence returned
alongside the error holds the values of rows 1..K-1 in delivery order; it is
empty exactly when K = 1.  This is what `execQuery` returns and what
`QueryContext`, `Query`, `QueryStatementContext` and `QueryStatement` return on
a handle that answers the query with that cursor. -/
theorem execQuery_failure_returns_earlier_rows {V T : Type} [Inhabited T] (rows : Rows V)
    (scan : ScanCallback V T) (pre : List (Scanner V)) (r : Scanner V)
    (post : List (Scanner V)) (e : Error)
    (hrows : rows.pending = pre ++ r :: post)
    (hok : ∀ x ∈ pre, (scan x default).2 = none)
    (hfail : (scan r default).2 = some e) :
    (execQuery rows scan).err = some e ∧
    (execQuery rows scan).results = pre.map (fun x => (scan x default).1) ∧
    (execQuery rows scan).results.length = pre.length ∧
    ((execQuery rows scan).results = [] ↔ pre = []) ∧
    (∀ (db : DB V) (ctx : Context) (q : String) (args : List V),
      db.QueryContext ctx q args = .ok rows →
        (QueryContext db ctx q scan args).err = some e ∧
        (QueryContext db ctx q scan args).results = pre.map (fun x => (scan x default).1) ∧
        (QueryContext db ctx q scan args).results.length = pre.length ∧
        ((QueryContext db ctx q scan args).results = [] ↔ pre = [])) ∧
    (∀ (db : DB V) (q : String) (args : List V),
      db.QueryContext .background q args = .ok rows →
        (Query db q scan args).err = some e ∧
        (Query db q scan args).results = pre.map (fun x => (scan x default).1) ∧
        (Query db q scan args).results.length = pre.length ∧
        ((Query db q scan args).results = [] ↔ pre = [])) ∧
    (∀ (stmt : Stmt V) (ctx : Context) (args : List V),
      stmt.QueryContext ctx args = .ok rows →
        (QueryStatementContext stmt ctx scan args).err = some e ∧
        (QueryStatementContext stmt ctx scan args).results =
          pre.map (fun x => (scan x default).1) ∧
        (QueryStatementContext stmt ctx scan args).results.length = pre.length ∧
        ((QueryStatementContext stmt ctx scan args).results = [] ↔ pre = [])) ∧
    (∀ (stmt : Stmt V) (args : List V),
      stmt.QueryContext .background args = .ok rows →
        (QueryStatement stmt scan args).err = some e ∧
        (QueryStatement stmt scan args).results = pre.map (fun x => (scan x default).1) ∧
        (QueryStatement stmt scan args).results.length = pre.length ∧
        ((QueryStatement stmt scan args).results = [] ↔ pre = [])) := by
  have hl := execQuery_loop_stop scan rows.err pre r post [] e hok hfail
  have hres : (execQuery rows scan).results = pre.map (fun x => (scan x default).1) := by
    simp [execQuery, hrows, hl]
  have herr : (execQuery rows scan).err = some e := by
    simp [execQuery, hrows, hl]
  have hlen : (execQuery rows scan).results.length = pre.length := by
    rw [hres]; simp
  have hnil : (execQuery rows scan).results = [] ↔ pre = [] := by
    rw [hres]; simp
  obtain ⟨w1, w2, w3, w4⟩ := multi_row_via_execQuery rows scan
  refine ⟨herr, hres, hlen, hnil, ?_, ?_, ?_, ?_⟩
  · intro db ctx q args h
    rw [w1 db ctx q args h]
    exact ⟨herr, hres, hlen, hnil⟩
  · intro db q args h
    rw [w2 db q args h]
    exact ⟨herr, hres, hlen, hnil⟩
  · intro stmt ctx args h
    rw [w3 stmt ctx args h]
    exact ⟨herr, hres, hlen, hnil⟩
  · intro stmt args h
    rw [w4 stmt args h]
    exact ⟨herr, hres, hlen, hnil⟩

/-- C9, amended, at a cursor whose second of three rows makes the callback
fail: one value is returned alongside the error, by the helper and by the
public `Query`. -/
theorem execQuery_failure_returns_earlier_rows_witness :
    (execQuery nullInSecondRow scanPerson).err = some (Error.convert 1) ∧
    (execQuery nullInSecondRow scanPerson).results.length = 1 ∧
    (Query (constDB nullInSecondRow) "SELECT * FROM test;" scanPerson []).err =
      some (Error.convert 1) ∧
    (Query (constDB nullInSecondRow) "SELECT * FROM test;" scanPerson []).results.length = 1 :=
  have h := execQuery_failure_returns_earlier_rows nullInSecondRow scanPerson [testRow 0]
    (.ok [.int 2, .null, .text "lname_1", .text "email_1"]) [testRow 2] (Error.convert 1)
    rfl (by decide) (by decide)
  have hq := h.2.2.2.2.2.1 (constDB nullInSecondRow) "SELECT * FROM test;" [] rfl
  ⟨h.1, h.2.2.1, hq.1, hq.2.2.1⟩

/-- C5: when the cursor of a query delivers at least one row and `execQuery`
succeeds on it with a callback, `execQueryRow` on the single-row cursor of the
same query with the same callback returns no error and a pointer to element 0
of the sequence `execQuery` returns; `QueryRow`, `QueryRowContext`,
`QueryRowStatement` and `QueryRowStatementContext` are `execQueryRow` on that
single-row cursor, as their multi-row counterparts are `execQuery`. -/
theorem execQueryRow_is_first_of_execQuery {V T : Type} [Inhabited T] (rows : Rows V)
    (scan : ScanCallback V T) (hne : rows.pending ≠ [])
    (hsucc : (execQuery rows scan).err = none) :
    (execQueryRow ⟨none, rows⟩ scan).2 = none ∧
    (execQueryRow ⟨none, rows⟩ scan).1 = (execQuery rows scan).results[0]? ∧
    (∀ (db : DB V) (ctx : Context) (q : String) (args : List V),
      db.QueryContext ctx q args = .ok rows →
        QueryRowContext db ctx q scan args = execQueryRow ⟨none, rows⟩ scan ∧
        QueryContext db ctx q scan args = execQuery rows scan) ∧
    (∀ (db : DB V) (q : String) (args : List V),
      db.QueryContext .background q args = .ok rows →
        QueryRow db q scan args = execQueryRow ⟨none, rows⟩ scan ∧
        Query db q scan args = execQuery rows scan) ∧
    (∀ (stmt : Stmt V) (ctx : Context) (args : List V),
      stmt.QueryContext ctx args = .ok rows →
        QueryRowStatementContext stmt ctx scan args = execQueryRow ⟨none, rows⟩ scan ∧
        QueryStatementContext stmt ctx scan args = execQuery rows scan) ∧
    (∀ (stmt : Stmt V) (args : List V),
      stmt.QueryContext .background args = .ok rows →
        QueryRowStatement stmt scan args = execQueryRow ⟨none, rows⟩ scan ∧
        QueryStatement stmt scan args = execQuery rows scan) := by
  obtain ⟨columns, pending, err⟩ := rows
  cases pending with
  | nil => exact absurd rfl hne
  | cons r rest =>
    have hh := execQuery_loop_head scan err r rest (by simpa [execQuery] using hsucc)
    refine ⟨?_, ?_, ?_, ?_, ?_, ?_⟩
    · simpa [execQueryRow, Row.scanner] using hh.1
    · simpa [execQueryRow, Row.scanner, execQuery] using hh.2.symm
    · intro db ctx q args h
      simp [QueryRowContext, DB.QueryRowContext, QueryContext, h]
    · intro db q args h
      simp [QueryRow, Query, QueryRowContext, DB.QueryRowContext, QueryContext, h]
    · intro stmt ctx args h
      simp [QueryRowStatementContext, Stmt.QueryRowContext, QueryStatementContext, h]
    · intro stmt args h
      simp [QueryRowStatement, QueryStatement, QueryRowStatementContext,
        Stmt.QueryRowContext, QueryStatementContext, h]

/-- C5 at the `test` table with three rows: the single row is the first of
the three. -/
theorem execQueryRow_is_first_of_execQuery_witness :
    (execQueryRow ⟨none, testRows 3⟩ scanPerson).2 = none ∧
    (execQueryRow ⟨none, testRows 3⟩ scanPerson).1 =
      (execQuery (testRows 3) scanPerson).results[0]? :=
  have h := execQueryRow_is_first_of_execQuery (testRows 3) scanPerson
    (by simp [testRows]) (by decide)
  ⟨h.1, h.2.1⟩

/-- C2, as stated, fails: on a query matching zero rows, with a callback that
drops the error of `Scan`, `execQueryRow` returns no error at all. -/
theorem execQueryRow_no_rows_ignored_example :
    (execQueryRow ⟨none, testRows 0⟩ scanIgnoringError).2 = none ∧
    (execQueryRow ⟨none, testRows 0⟩ scanIgnoringError).2 ≠ some Error.ErrNoRows := by
  decide

/-- C2, amended: on a query that matches zero rows (the cursor delivers no row
and has no terminal error), with a callback that returns the error its scanner
reports, `execQueryRow` returns the distinguished no-rows error, and so do
`QueryRow`, `QueryRowContext`, `QueryRowStatement` and
`QueryRowStatementContext` on a handle that answers with that cursor. -/
theorem execQueryRow_no_rows {V T : Type} [Inhabited T] (rows : Rows V)
    (scan : ScanCallback V T) (hzero : rows.pending = []) (hterm : rows.err = none)
    (hprop : ∀ (e : Error) (t : T), (scan (.error e) t).2 = some e) :
    (execQueryRow ⟨none, rows⟩ scan).2 = some Error.ErrNoRows ∧
    (∀ (db : DB V) (ctx : Context) (q : String) (args : List V),
      db.QueryContext ctx q args = .ok rows →
        (QueryRowContext db ctx q scan args).2 = some Error.ErrNoRows) ∧
    (∀ (db : DB V) (q : String) (args : List V),
      db.QueryContext .background q args = .ok rows →
        (QueryRow db q scan args).2 = some Error.ErrNoRows) ∧
    (∀ (stmt : Stmt V) (ctx : Context) (args : List V),
      stmt.QueryContext ctx args = .ok rows →
        (QueryRowStatementContext stmt ctx scan args).2 = some Error.ErrNoRows) ∧
    (∀ (stmt : Stmt V) (args : List V),
      stmt.QueryContext .background args = .ok rows →
        (QueryRowStatement stmt scan args).2 = some Error.ErrNoRows) := by
  have h0 : (execQueryRow ⟨none, rows⟩ scan).2 = some Error.ErrNoRows := by
    simp [execQueryRow, Row.scanner, hzero, hterm, hprop]
  refine ⟨h0, ?_, ?_, ?_, ?_⟩
  · intro db ctx q args h
    simpa [QueryRowContext, DB.QueryRowContext, h] using h0
  · intro db q args h
    simpa [QueryRow, QueryRowContext, DB.QueryRowContext, h] using h0
  · intro stmt ctx args h
    simpa [QueryRowStatementContext, Stmt.QueryRowContext, h] using h0
  · intro stmt args h
    simpa [QueryRowStatement, QueryRowStatementContext, Stmt.QueryRowContext, h] using h0

/-- C2, amended, at the empty `test` table with the callback of the test
suite. -/
theorem execQueryRow_no_rows_witness :
    (execQueryRow ⟨none, testRows 0⟩ scanPerson).2 = some Error.ErrNoRows ∧
    (QueryRow (constDB (testRows 0)) "SELECT * FROM test WHERE id = ?;" scanPerson
      [Cell.int 5]).2 = some Error.ErrNoRows :=
  have h := execQueryRow_no_rows (testRows 0) scanPerson rfl rfl
    (fun e t => by simp [scanPerson])
  ⟨h.1, h.2.2.1 (constDB (testRows 0)) _ _ rfl⟩

/-- C10: `execQueryRow` returns a non-nil pointer, to the entity as the
callback left it starting from the zero value, together with exactly the error
the callback returned; when the callback leaves the entity untouched the
pointer is to the zero value of `T`; `QueryRowContext` and
`QueryRowStatementContext` return that same pair for the single-row cursor they
obtain. -/
theorem execQueryRow_returns_callback_result {V T : Type} [Inhabited T] (row : Row V)
    (scan : ScanCallback V T) :
    (execQueryRow row scan).1 = some (scan row.scanner default).1 ∧
    (execQueryRow row scan).2 = (scan row.scanner default).2 ∧
    (execQueryRow row scan).1 ≠ none ∧
    ((scan row.scanner default).1 = default → (execQueryRow row scan).1 = some default) ∧
    (∀ (db : DB V) (ctx : Context) (q : String) (args : List V),
      (QueryRowContext db ctx q scan args).1 ≠ none ∧
      (QueryRowContext db ctx q scan args).2 =
        (scan (db.QueryRowContext ctx q args).scanner default).2) ∧
    (∀ (stmt : Stmt V) (ctx : Context) (args : List V),
      (QueryRowStatementContext stmt ctx scan args).1 ≠ none ∧
      (QueryRowStatementContext stmt ctx scan args).2 =
        (scan (stmt.QueryRowContext ctx args).scanner default).2) := by
  refine ⟨rfl, rfl, ?_, ?_, ?_, ?_⟩
  · simp [execQueryRow]
  · intro h
    simp [execQueryRow, h]
  · intro db ctx q args
    exact ⟨by simp [QueryRowContext, execQueryRow], rfl⟩
  · intro stmt ctx args
    exact ⟨by simp [QueryRowStatementContext, execQueryRow], rfl⟩

/-- C10 at the empty `test` table: the no-rows error comes with a pointer to
the zero `Person`. -/
theorem execQueryRow_returns_callback_result_witness :
    (execQueryRow ⟨none, testRows 0⟩ scanPerson).1 = some (default : Person) ∧
    (execQueryRow ⟨none, testRows 0⟩ scanPerson).2 = some Error.ErrNoRows :=
  have h := execQueryRow_returns_callback_result ⟨none, testRows 0⟩ scanPerson
  ⟨h.2.2.2.1 (by decide), h.2.1.trans (by decide)⟩


/-! ## Lemmas on maps -/

theorem GoMap.get?_set {V : Type} (m : GoMap V) (k : String) (v : GoAny V) (c : String) :
    GoMap.get? (GoMap.set m k v) c = if k = c then some v else GoMap.get? m c := by
  induction m with
  | nil => simp [GoMap.set, GoMap.get?]
  | cons p rest ih =>
    obtain ⟨k', v'⟩ := p
    by_cases h : k' = k
    · subst h
      by_cases hc : k' = c <;> simp [GoMap.set, GoMap.get?, hc]
    · by_cases hc : k' = c
      · subst hc
        have : ¬ k = k' := fun e => h e.symm
        simp [GoMap.set, GoMap.get?, h, this]
      · simp [GoMap.set, GoMap.get?, h, hc, ih]

theorem GoMap.mem_keys_set {V : Type} (m : GoMap V) (k : String) (v : GoAny V) (c : String) :
    c ∈ GoMap.keys (GoMap.set m k v) ↔ c = k ∨ c ∈ GoMap.keys m := by
  induction m with
  | nil => simp [GoMap.set, GoMap.keys]
  | cons p rest ih =>
    obtain ⟨k', v'⟩ := p
    by_cases h : k' = k
    · subst h
      simp [GoMap.set, GoMap.keys]
    · simp only [GoMap.keys] at ih
      simp only [GoMap.set, h, GoMap.keys, if_false, List.map_cons, List.mem_cons, ih]
      tauto

theorem GoMap.nodup_keys_set {V : Type} (m : GoMap V) (k : String) (v : GoAny V)
    (hm : (GoMap.keys m).Nodup) : (GoMap.keys (GoMap.set m k v)).Nodup := by
  induction m with
  | nil => simp [GoMap.set, GoMap.keys]
  | cons p rest ih =>
    obtain ⟨k', v'⟩ := p
    have hm' : k' ∉ GoMap.keys rest ∧ (GoMap.keys rest).Nodup := by
      simpa [GoMap.keys] using hm
    by_cases h : k' = k
    · subst h
      simpa [GoMap.set, GoMap.keys] using hm
    · have hk : k' ∉ GoMap.keys (GoMap.set rest k v) := by
        rw [GoMap.mem_keys_set]
        exact fun hh => hh.elim h hm'.1
      have := ih hm'.2
      simp only [GoMap.keys] at this hk
      simp [GoMap.set, h, GoMap.keys, this, hk]

/-- Assigning a list of pairs in order: the lookups, the keys and their
distinctness. -/
theorem GoMap.foldl_set_spec {V : Type} (ps : List (String × GoAny V)) (m : GoMap V)
    (hm : (GoMap.keys m).Nodup) :
    (GoMap.keys (ps.foldl (fun m p => GoMap.set m p.1 p.2) m)).Nodup ∧
    (∀ c, c ∈ GoMap.keys (ps.foldl (fun m p => GoMap.set m p.1 p.2) m) ↔
      c ∈ ps.map Prod.fst ∨ c ∈ GoMap.keys m) ∧
    (∀ c, c ∉ ps.map Prod.fst →
      GoMap.get? (ps.foldl (fun m p => GoMap.set m p.1 p.2) m) c = GoMap.get? m c) := by
  induction ps generalizing m with
  | nil => simp [hm]
  | cons p rest ih =>
    obtain ⟨h1, h2, h3⟩ := ih (GoMap.set m p.1 p.2) (GoMap.nodup_keys_set m p.1 p.2 hm)
    refine ⟨h1, ?_, ?_⟩
    · intro c
      simp only [List.foldl_cons, h2, GoMap.mem_keys_set, List.map_cons, List.mem_cons]
      tauto
    · intro c hc
      simp only [List.map_cons, List.mem_cons, not_or] at hc
      simp only [List.foldl_cons]
      have hne : ¬ p.1 = c := fun e => hc.1 e.symm
      rw [h3 c hc.2, GoMap.get?_set]
      simp [hne]

/-- The pair assigned last for a key decides the lookup of that key. -/
theorem GoMap.get?_foldl_set_last {V : Type} (a b : List (String × GoAny V)) (c : String)
    (x : GoAny V) (m : GoMap V) (hm : (GoMap.keys m).Nodup) (hb : c ∉ b.map Prod.fst) :
    GoMap.get? ((a ++ (c, x) :: b).foldl (fun m p => GoMap.set m p.1 p.2) m) c = some x := by
  rw [List.foldl_append, List.foldl_cons]
  have hn := (GoMap.foldl_set_spec a m hm).1
  have hn' := GoMap.nodup_keys_set (a.foldl (fun m p => GoMap.set m p.1 p.2) m) c x hn
  rw [(GoMap.foldl_set_spec b _ hn').2.2 c hb, GoMap.get?_set]
  simp

theorem rowOf_keys {V : Type} (cols : List String) (vals : List V)
    (hlen : vals.length = cols.length) :
    (GoMap.keys (rowOf cols vals)).Nodup ∧
    (∀ c, c ∈ GoMap.keys (rowOf cols vals) ↔ c ∈ cols) ∧
    GoMap.len (rowOf cols vals) = cols.dedup.length := by
  have hspec := GoMap.foldl_set_spec (cols.zip (vals.map GoAny.val)) ([] : GoMap V)
    (by simp [GoMap.keys])
  have hfst : (cols.zip (vals.map GoAny.val)).map Prod.fst = cols := by
    rw [List.map_fst_zip]
    simp [hlen]
  have hmem : ∀ c, c ∈ GoMap.keys (rowOf cols vals) ↔ c ∈ cols := by
    intro c
    have := hspec.2.1 c
    rw [hfst] at this
    simpa [rowOf, GoMap.keys] using this
  have hnd : (GoMap.keys (rowOf cols vals)).Nodup := hspec.1
  refine ⟨hnd, hmem, ?_⟩
  have hperm : List.Perm (GoMap.keys (rowOf cols vals)) cols.dedup :=
    (List.perm_ext_iff_of_nodup hnd (List.nodup_dedup cols)).2
      (fun c => (hmem c).trans List.mem_dedup.symm)
  have := hperm.length_eq
  simpa [GoMap.len, GoMap.keys] using this

theorem rowOf_get? {V : Type} (cols : List String) (vals : List V)
    (i : Nat) (c : String) (x : V) (hc : cols[i]? = some c) (hx : vals[i]? = some x)
    (hlast : ∀ j, i < j → cols[j]? ≠ some c) :
    GoMap.get? (rowOf cols vals) c = some (GoAny.val x) := by
  have hp : (cols.zip (vals.map GoAny.val))[i]? = some (c, GoAny.val x) := by
    rw [List.getElem?_zip_eq_some]
    simp [hc, hx]
  obtain ⟨hi, hget⟩ := List.getElem?_eq_some_iff.1 hp
  have hsplit : cols.zip (vals.map GoAny.val) =
      (cols.zip (vals.map GoAny.val)).take i ++
        (c, GoAny.val x) :: (cols.zip (vals.map GoAny.val)).drop (i + 1) := by
    rw [← hget, List.getElem_cons_drop, List.take_append_drop]
  have hb : c ∉ ((cols.zip (vals.map GoAny.val)).drop (i + 1)).map Prod.fst := by
    intro hmem
    obtain ⟨p, hpmem, hpc⟩ := List.mem_map.1 hmem
    obtain ⟨n, hn⟩ := List.mem_iff_getElem?.1 hpmem
    rw [List.getElem?_drop, List.getElem?_zip_eq_some] at hn
    exact hlast (i + 1 + n) (by omega) (by rw [hn.1, hpc])
  unfold rowOf
  rw [hsplit]
  exact GoMap.get?_foldl_set_last _ _ c (GoAny.val x) [] (by simp [GoMap.keys]) hb


/-- Every value stored by a sequence of assignments is one of the assigned
values or was in the map before. -/
theorem GoMap.get?_foldl_set_mem {V : Type} (ps : List (String × GoAny V)) (m : GoMap V)
    (c : String) (a : GoAny V)
    (h : GoMap.get? (ps.foldl (fun m p => GoMap.set m p.1 p.2) m) c = some a) :
    (c, a) ∈ ps ∨ GoMap.get? m c = some a := by
  induction ps generalizing m with
  | nil => exact Or.inr h
  | cons p rest ih =>
    rcases ih (GoMap.set m p.1 p.2) h with h1 | h1
    · exact Or.inl (List.mem_cons_of_mem _ h1)
    · rw [GoMap.get?_set] at h1
      by_cases hk : p.1 = c
      · simp only [hk, if_true, Option.some.injEq] at h1
        left
        rw [← h1, ← hk]
        exact List.mem_cons_self _ _
      · simp only [hk, if_false] at h1
        exact Or.inr h1

theorem rowOf_get?_mem {V : Type} (cols : List String) (vals : List V) (c : String)
    (a : GoAny V) (h : GoMap.get? (rowOf cols vals) c = some a) :
    ∃ x ∈ vals, a = GoAny.val x := by
  rcases GoMap.get?_foldl_set_mem _ _ c a h with h1 | h1
  · have := (List.of_mem_zip h1).2
    obtain ⟨x, hx, hxa⟩ := List.mem_map.1 this
    exact ⟨x, hx, hxa.symm⟩
  · simp [GoMap.get?] at h1

/-! ## Lemmas on scanning into the value slots -/

theorem take_set_succ {α : Type} (l : List α) (k : Nat) (v : α) (h : k < l.length) :
    (l.set k v).take (k + 1) = l.take k ++ [v] := by
  induction l generalizing k with
  | nil => simp at h
  | cons a rest ih =>
    cases k with
    | zero => simp
    | succ k =>
      have hk : k < rest.length := by simpa using h
      simp [ih k hk]

/-- Scanning through the pointers to cells `k, k+1, ...` overwrites exactly
those cells with the scanned values. -/
theorem assign_range' {V : Type} (xs : List V) (k : Nat) (cells : List (GoAny V))
    (hlen : k + xs.length = cells.length) :
    assign ((List.range' k xs.length).map GoAny.ptr) xs cells =
      .ok (cells.take k ++ xs.map GoAny.val) := by
  induction xs generalizing k cells with
  | nil =>
    have : cells.length ≤ k := by simp at hlen; omega
    simp [assign, List.take_of_length_le this]
  | cons x rest ih =>
    have hk : k < cells.length := by simp at hlen; omega
    have hlen' : k + 1 + rest.length = (cells.set k (GoAny.val x)).length := by
      simp at hlen ⊢; omega
    simp only [List.length_cons, List.range'_succ, List.map_cons, assign]
    rw [ih (k + 1) _ hlen', take_set_succ cells k _ hk]
    simp

/-- Scanning a row with as many values as there are slots fills the cells
with those values. -/
theorem Rows_Scan_ok {V : Type} (vs : List V) (cells : List (GoAny V))
    (hlen : vs.length = cells.length) :
    Rows.Scan (.ok vs) ((List.range cells.length).map GoAny.ptr) cells =
      .ok (vs.map GoAny.val) := by
  have h := assign_range' vs 0 cells (by omega)
  rw [hlen, ← List.range_eq_range'] at h
  simp [Rows.Scan, hlen, h]

/-- A scan through the value slots succeeds only on a row with as many values
as there are slots, and then fills the cells with those values. -/
theorem Rows_Scan_inv {V : Type} (r : Scanner V) (cells cells' : List (GoAny V))
    (h : Rows.Scan r ((List.range cells.length).map GoAny.ptr) cells = .ok cells') :
    ∃ vs, r = .ok vs ∧ vs.length = cells.length ∧ cells' = vs.map GoAny.val := by
  cases r with
  | error e => simp [Rows.Scan] at h
  | ok vs =>
    by_cases hlen : vs.length = cells.length
    · rw [Rows_Scan_ok vs cells hlen] at h
      exact ⟨vs, rfl, hlen, by injection h with h; exact h.symm⟩
    · have hne : ¬ cells.length = vs.length := fun e => hlen e.symm
      simp [Rows.Scan, hne] at h

/-- Reading the slots back column by column builds the mapping `rowOf`. -/
theorem fillRow_from {V : Type} (vs : List V) (cols : List String) (i : Nat)
    (row : GoMap V) (hi : i + cols.length = vs.length) :
    fillRow ((List.range vs.length).map GoAny.ptr) (vs.map GoAny.val) i cols row =
      (cols.zip ((vs.drop i).map GoAny.val)).foldl (fun m p => GoMap.set m p.1 p.2) row := by
  induction cols generalizing i row with
  | nil => simp [fillRow]
  | cons col rest ih =>
    have hlt : i < vs.length := by simp at hi; omega
    have hv : ((List.range vs.length).map GoAny.ptr).getD i (GoAny.nil : GoAny V) =
        GoAny.ptr i := by
      simp [List.getD_eq_getElem?_getD, List.getElem?_range hlt]
    have hc : (vs.map GoAny.val).getD i (GoAny.nil : GoAny V) = GoAny.val vs[i] := by
      simp [List.getD_eq_getElem?_getD, List.getElem?_eq_getElem hlt]
    have hd : vs.drop i = vs[i] :: vs.drop (i + 1) := List.drop_eq_getElem_cons hlt
    simp only [fillRow, hv, indirect, hc]
    rw [ih (i + 1) _ (by simp at hi; omega), hd]
    simp only [List.map_cons, List.zip_cons_cons, List.foldl_cons]

theorem fillRow_eq_rowOf {V : Type} (vs : List V) (cols : List String)
    (hlen : vs.length = cols.length) :
    fillRow ((List.range cols.length).map GoAny.ptr) (vs.map GoAny.val) 0 cols [] =
      rowOf cols vs := by
  have h := fillRow_from vs cols 0 [] (by omega)
  rw [hlen] at h
  simpa [rowOf] using h


/-! ## Lemmas on the loop of ExecuteDynamicQuery -/

/-- A loop over rows that all carry one value per column runs to exhaustion
and appends the mapping of each row. -/
theorem dynamic_loop_all {V : Type} (cols : List String) (termErr : Option Error)
    (vss : List (List V)) (cells : List (GoAny V)) (res : List (GoMap V))
    (hcl : cells.length = cols.length) (hlen : ∀ vs ∈ vss, vs.length = cols.length) :
    ExecuteDynamicQuery.loop cols ((List.range cols.length).map GoAny.ptr) termErr
        (vss.map Except.ok) cells res =
      (res ++ vss.map (rowOf cols), termErr,
        steps Event.scan (vss.map Except.ok) ++ [.next, .err]) := by
  induction vss generalizing cells res with
  | nil => simp [ExecuteDynamicQuery.loop, steps]
  | cons vs rest ih =>
    have hvs : vs.length = cols.length := hlen vs (List.mem_cons_self _ _)
    have hrest : ∀ x ∈ rest, x.length = cols.length :=
      fun x hx => hlen x (List.mem_cons_of_mem _ hx)
    have hscan : Rows.Scan (.ok vs) ((List.range cols.length).map GoAny.ptr) cells =
        .ok (vs.map GoAny.val) := by
      rw [← hcl]
      exact Rows_Scan_ok vs cells (hvs.trans hcl.symm)
    simp only [List.map_cons, ExecuteDynamicQuery.loop, hscan]
    rw [ih (vs.map GoAny.val) _ (by simpa using hvs) hrest, fillRow_eq_rowOf vs cols hvs]
    simp [steps]

/-- Every mapping the loop returns was accumulated before it or is the mapping
of a row that carries one value per column. -/
theorem dynamic_loop_mem {V : Type} (cols : List String) (termErr : Option Error)
    (pending : List (Scanner V)) (cells : List (GoAny V)) (res : List (GoMap V))
    (hcl : cells.length = cols.length) :
    ∀ m ∈ (ExecuteDynamicQuery.loop cols ((List.range cols.length).map GoAny.ptr) termErr
        pending cells res).1,
      m ∈ res ∨ ∃ vs : List V, vs.length = cols.length ∧ m = rowOf cols vs := by
  induction pending generalizing cells res with
  | nil => intro m hm; exact Or.inl (by simpa [ExecuteDynamicQuery.loop] using hm)
  | cons r rest ih =>
    intro m hm
    cases hsc : Rows.Scan r ((List.range cols.length).map GoAny.ptr) cells with
    | error e => exact Or.inl (by simpa [ExecuteDynamicQuery.loop, hsc] using hm)
    | ok cells' =>
      obtain ⟨vs, _, hvl, hcells⟩ := Rows_Scan_inv r cells cells' (by rw [hcl]; exact hsc)
      have hvs : vs.length = cols.length := hvl.trans hcl
      subst hcells
      simp only [ExecuteDynamicQuery.loop, hsc, fillRow_eq_rowOf vs cols hvs] at hm
      rcases ih (vs.map GoAny.val) _ (by simpa using hvs) m hm with h | h
      · rcases List.mem_append.1 h with h | h
        · exact Or.inl h
        · exact Or.inr ⟨vs, hvs, by simpa using h⟩
      · exact Or.inr h

/-- The loop of ExecuteDynamicQuery never closes the cursor itself. -/
theorem dynamic_loop_closeCount {V : Type} (cols : List String) (values : List (GoAny V))
    (termErr : Option Error) (pending : List (Scanner V)) (cells : List (GoAny V))
    (res : List (GoMap V)) :
    closeCount (ExecuteDynamicQuery.loop cols values termErr pending cells res).2.2 = 0 := by
  induction pending generalizing cells res with
  | nil => simp [ExecuteDynamicQuery.loop, closeCount, Event.isClose]
  | cons r rest ih =>
    cases hsc : Rows.Scan r values cells with
    | error e => simp [ExecuteDynamicQuery.loop, hsc, closeCount, Event.isClose]
    | ok cells' =>
      have := ih cells' (res ++ [fillRow values cells' 0 cols []])
      simp only [closeCount] at this
      simp [ExecuteDynamicQuery.loop, hsc, closeCount, List.filter, Event.isClose, this]


/-- The trace of execQuery: one close, and it comes last. -/
theorem execQuery_close {V T : Type} [Inhabited T] (rows : Rows V) (scan : ScanCallback V T) :
    closeCount (execQuery rows scan).trace = 1 ∧
    (execQuery rows scan).trace.getLast? = some .close := by
  constructor
  · simp only [execQuery, closeCount_append, execQuery_loop_closeCount]
    rfl
  · simp [execQuery]

/-- One close on each exit path once a cursor is open (exhaustion, a callback
error, a terminal error, a failing `Columns`, a failing `Scan`), none when
issuing the query fails. -/
theorem close_on_each_path_example :
    closeCount (execQuery (testRows 2) scanPerson).trace = 1 ∧
    closeCount (execQuery nullInSecondRow scanPerson).trace = 1 ∧
    closeCount (execQuery (testRowsThenError 2 (Error.other 7)) scanPerson).trace = 1 ∧
    closeCount (ExecuteDynamicQuery (constDB (⟨.error (Error.other 3), [], none⟩ : Rows Cell))
      "SELECT * FROM test;" []).trace = 1 ∧
    closeCount (ExecuteDynamicQuery
      (constDB (⟨.ok ["id"], [.error (Error.other 4)], none⟩ : Rows Cell))
      "SELECT id FROM test;" []).trace = 1 ∧
    closeCount (ExecuteDynamicQuery (failDB Cell (Error.other 5)) "SELECT * FROM test;"
      []).trace = 0 ∧
    closeCount (QueryContext (failDB Cell (Error.other 5)) .background "SELECT * FROM test;"
      scanPerson []).trace = 0 := by
  decide

/-! ## Cursor lifetime and terminal errors: the claims -/

/-- C4: `execQuery` closes its cursor exactly once and that call is the last
thing it does, whatever the rows, the terminal error and the callback do; the
same holds for `QueryContext`, `QueryStatementContext` and
`ExecuteDynamicQuery` whenever issuing the query yields a cursor (including
when `Columns` fails or a row fails to scan), while a failed issuance leaves an
empty trace: no cursor is opened and none is closed. -/
theorem cursor_closed_exactly_once {V T : Type} [Inhabited T] (rows : Rows V)
    (scan : ScanCallback V T) (db : DB V) (stmt : Stmt V) (ctx : Context) (q : String)
    (args : List V) :
    (closeCount (execQuery rows scan).trace = 1 ∧
      (execQuery rows scan).trace.getLast? = some .close) ∧
    (match db.QueryContext ctx q args with
      | .error _ => (QueryContext db ctx q scan args).trace = []
      | .ok _ => closeCount (QueryContext db ctx q scan args).trace = 1 ∧
          (QueryContext db ctx q scan args).trace.getLast? = some .close) ∧
    (match stmt.QueryContext ctx args with
      | .error _ => (QueryStatementContext stmt ctx scan args).trace = []
      | .ok _ => closeCount (QueryStatementContext stmt ctx scan args).trace = 1 ∧
          (QueryStatementContext stmt ctx scan args).trace.getLast? = some .close) ∧
    (match db.QueryContext .background q args with
      | .error _ => (ExecuteDynamicQuery db q args).trace = []
      | .ok _ => closeCount (ExecuteDynamicQuery db q args).trace = 1 ∧
          (ExecuteDynamicQuery db q args).trace.getLast? = some .close) := by
  refine ⟨execQuery_close rows scan, ?_, ?_, ?_⟩
  · cases h : db.QueryContext ctx q args with
    | error e => simp [QueryContext, h]
    | ok r => simpa [QueryContext, h] using execQuery_close r scan
  · cases h : stmt.QueryContext ctx args with
    | error e => simp [QueryStatementContext, h]
    | ok r => simpa [QueryStatementContext, h] using execQuery_close r scan
  · cases h : db.QueryContext .background q args with
    | error e => simp [ExecuteDynamicQuery, h]
    | ok r =>
      cases hc : r.columns with
      | error e => simp [ExecuteDynamicQuery, h, hc, closeCount, Event.isClose]
      | ok cols =>
        have h0 := dynamic_loop_closeCount cols ((List.range cols.length).map GoAny.ptr)
          r.err r.pending (List.replicate cols.length GoAny.nil) []
        constructor
        · simp only [ExecuteDynamicQuery, h, hc, closeCount_append]
          rw [show ∀ l : List (Event V), closeCount (Event.columns :: l) = closeCount l from
            fun l => rfl, h0]
          rfl
        · simp only [ExecuteDynamicQuery, h, hc]
          exact List.getLast?_concat _

/-- C8: on a cursor that reports the error `e` once exhausted, `execQuery` with
a callback that succeeds on every row, and `ExecuteDynamicQuery` when every row
carries one value per column, return exactly `e`; every row has been scanned
before `rows.Err()` is called, which is the last call before the close.  The
same holds of `QueryContext`, `Query`, `QueryStatementContext` and
`QueryStatement` on a handle that answers the query with that cursor. -/
theorem terminal_error_returned_after_all_rows {V T : Type} [Inhabited T] (rows : Rows V)
    (e : Error) (hterm : rows.err = some e) :
    (∀ scan : ScanCallback V T, (∀ r ∈ rows.pending, (scan r default).2 = none) →
      ((execQuery rows scan).err = some e ∧
        scannedRows (execQuery rows scan).trace = rows.pending ∧
        (execQuery rows scan).trace =
          steps Event.populate rows.pending ++ [.next, .err, .close]) ∧
      (∀ (db : DB V) (ctx : Context) (q : String) (args : List V),
        db.QueryContext ctx q args = .ok rows →
          (QueryContext db ctx q scan args).err = some e ∧
          scannedRows (QueryContext db ctx q scan args).trace = rows.pending ∧
          (QueryContext db ctx q scan args).trace =
            steps Event.populate rows.pending ++ [.next, .err, .close]) ∧
      (∀ (db : DB V) (q : String) (args : List V),
        db.QueryContext .background q args = .ok rows →
          (Query db q scan args).err = some e ∧
          scannedRows (Query db q scan args).trace = rows.pending ∧
          (Query db q scan args).trace =
            steps Event.populate rows.pending ++ [.next, .err, .close]) ∧
      (∀ (stmt : Stmt V) (ctx : Context) (args : List V),
        stmt.QueryContext ctx args = .ok rows →
          (QueryStatementContext stmt ctx scan args).err = some e ∧
          scannedRows (QueryStatementContext stmt ctx scan args).trace = rows.pending ∧
          (QueryStatementContext stmt ctx scan args).trace =
            steps Event.populate rows.pending ++ [.next, .err, .close]) ∧
      (∀ (stmt : Stmt V) (args : List V),
        stmt.QueryContext .background args = .ok rows →
          (QueryStatement stmt scan args).err = some e ∧
          scannedRows (QueryStatement stmt scan args).trace = rows.pending ∧
          (QueryStatement stmt scan args).trace =
            steps Event.populate rows.pending ++ [.next, .err, .close])) ∧
    (∀ (db : DB V) (q : String) (args : List V) (cols : List String) (vss : List (List V)),
      db.QueryContext .background q args = .ok rows → rows.columns = .ok cols →
      rows.pending = vss.map Except.ok → (∀ vs ∈ vss, vs.length = cols.length) →
      (ExecuteDynamicQuery db q args).err = some e ∧
      scannedRows (ExecuteDynamicQuery db q args).trace = rows.pending ∧
      (ExecuteDynamicQuery db q args).trace =
        .columns :: steps Event.scan rows.pending ++ [.next, .err, .close]) := by
  constructor
  · intro scan hok
    have hl := execQuery_loop_all scan rows.err rows.pending [] hok
    have htr : (execQuery rows scan).trace =
        steps Event.populate rows.pending ++ [.next, .err, .close] := by
      simp [execQuery, hl]
    have herr : (execQuery rows scan).err = some e := by
      simp [execQuery, hl]; exact hterm
    have hsc : scannedRows (execQuery rows scan).trace = rows.pending := by
      rw [htr, scannedRows_append, scannedRows_steps Event.populate (fun _ => rfl)]
      simp [scannedRows, Event.scanned?]
    obtain ⟨w1, w2, w3, w4⟩ := multi_row_via_execQuery rows scan
    refine ⟨⟨herr, hsc, htr⟩, ?_, ?_, ?_, ?_⟩
    · intro db ctx q args h
      rw [w1 db ctx q args h]
      exact ⟨herr, hsc, htr⟩
    · intro db q args h
      rw [w2 db q args h]
      exact ⟨herr, hsc, htr⟩
    · intro stmt ctx args h
      rw [w3 stmt ctx args h]
      exact ⟨herr, hsc, htr⟩
    · intro stmt args h
      rw [w4 stmt args h]
      exact ⟨herr, hsc, htr⟩
  · intro db q args cols vss hq hc hp hlen
    have hl := dynamic_loop_all cols rows.err vss (List.replicate cols.length GoAny.nil) []
      (by simp) hlen
    have htr : (ExecuteDynamicQuery db q args).trace =
        .columns :: steps Event.scan rows.pending ++ [.next, .err, .close] := by
      simp [ExecuteDynamicQuery, hq, hc, hp, hl]
    refine ⟨?_, ?_, htr⟩
    · simp [ExecuteDynamicQuery, hq, hc, hp, hl]; exact hterm
    · rw [htr, scannedRows_append,
        show ∀ l : List (Event V), scannedRows (Event.columns :: l) = scannedRows l from
          fun l => rfl,
        scannedRows_steps Event.scan (fun _ => rfl)]
      simp [scannedRows, Event.scanned?]

/-- C8 at the `test` table with two rows and a terminal error: the helper, the
public `Query` and `QueryStatement`, and `ExecuteDynamicQuery` return that
error. -/
theorem terminal_error_returned_after_all_rows_witness :
    (execQuery (testRowsThenError 2 (Error.other 7)) scanPerson).err = some (Error.other 7) ∧
    (Query (constDB (testRowsThenError 2 (Error.other 7))) "SELECT * FROM test;"
      scanPerson []).err = some (Error.other 7) ∧
    (QueryStatement (constStmt (testRowsThenError 2 (Error.other 7)))
      scanPerson []).err = some (Error.other 7) ∧
    (ExecuteDynamicQuery (constDB (testRowsThenError 2 (Error.other 7))) "SELECT * FROM test;"
      []).err = some (Error.other 7) :=
  have h := terminal_error_returned_after_all_rows (T := Person)
    (testRowsThenError 2 (Error.other 7)) (Error.other 7) rfl
  have ht := h.1 scanPerson (by decide)
  ⟨ht.1.1,
   (ht.2.2.1 (constDB (testRowsThenError 2 (Error.other 7))) "SELECT * FROM test;" [] rfl).1,
   (ht.2.2.2.2 (constStmt (testRowsThenError 2 (Error.other 7))) [] rfl).1,
   (h.2 (constDB (testRowsThenError 2 (Error.other 7))) "SELECT * FROM test;" []
      ["id", "fname", "lname", "email"]
      [[.int 1, .text "fname_0", .text "lname_0", .text "email_0"],
       [.int 2, .text "fname_1", .text "lname_1", .text "email_1"]]
      rfl rfl (by rfl) (by decide)).1⟩

/-! ## Dynamic row materializer: the claims -/

/-- C6, as stated, fails: for a result set with two columns both named `id`
the call succeeds and returns one mapping, whose size is 1 while the cursor
reports 2 columns. -/
theorem ExecuteDynamicQuery_duplicate_columns_example :
    dupColumns.columns = .ok ["id", "id"] ∧
    (ExecuteDynamicQuery (constDB dupColumns) "SELECT a.id, b.id FROM test a, test b;" []).err
      = none ∧
    (ExecuteDynamicQuery (constDB dupColumns) "SELECT a.id, b.id FROM test a, test b;"
      []).results.map GoMap.len = [1] ∧
    ¬ (∀ m ∈ (ExecuteDynamicQuery (constDB dupColumns)
        "SELECT a.id, b.id FROM test a, test b;" []).results, GoMap.len m = 2) :=
  ⟨rfl, by decide, by decide, by decide⟩

/-- C6, amended: for every row mapping `ExecuteDynamicQuery` returns (in
particular on success), the key set is exactly the set of the column names the
cursor reports, the keys are pairwise distinct, and the size of the mapping is
the number of distinct column names, which is the column count when the names
are pairwise distinct. -/
theorem ExecuteDynamicQuery_keys {V : Type} (db : DB V) (q : String) (args : List V)
    (rows : Rows V) (cols : List String)
    (hq : db.QueryContext .background q args = .ok rows) (hc : rows.columns = .ok cols) :
    ∀ m ∈ (ExecuteDynamicQuery db q args).results,
      (∀ c, c ∈ GoMap.keys m ↔ c ∈ cols) ∧
      (GoMap.keys m).Nodup ∧
      GoMap.len m = cols.dedup.length ∧
      (cols.Nodup → GoMap.len m = cols.length) := by
  intro m hm
  have hm' : m ∈ (ExecuteDynamicQuery.loop cols ((List.range cols.length).map GoAny.ptr)
      rows.err rows.pending (List.replicate cols.length GoAny.nil) []).1 := by
    simpa [ExecuteDynamicQuery, hq, hc] using hm
  rcases dynamic_loop_mem cols rows.err rows.pending _ [] (by simp) m hm' with h | h
  · simp at h
  · obtain ⟨vs, hvs, rfl⟩ := h
    obtain ⟨h1, h2, h3⟩ := rowOf_keys cols vs hvs
    exact ⟨h2, h1, h3, fun hn => by rw [h3, hn.dedup]⟩

/-- C6, amended, at the `test` table with two rows: the mapping of row 0 is
returned, its keys are the four column names and its size is 4. -/
theorem ExecuteDynamicQuery_keys_witness :
    firstRowMap ∈
      (ExecuteDynamicQuery (constDB (testRows 2)) "SELECT * FROM test;" []).results ∧
    (∀ c, c ∈ GoMap.keys firstRowMap ↔ c ∈ ["id", "fname", "lname", "email"]) ∧
    GoMap.len firstRowMap = 4 :=
  have hm : firstRowMap ∈
      (ExecuteDynamicQuery (constDB (testRows 2)) "SELECT * FROM test;" []).results := by
    decide
  have h := ExecuteDynamicQuery_keys (constDB (testRows 2)) "SELECT * FROM test;" []
    (testRows 2) ["id", "fname", "lname", "email"] rfl rfl firstRowMap hm
  ⟨hm, h.1, h.2.2.2 (by decide)⟩

/-- C7: when every row of the result set carries one value per column,
`ExecuteDynamicQuery` returns the cursor's terminal error and one mapping per
row, in delivery order; in the mapping of a row the name at column index `i`
is bound to the value scanned at `i` whenever no later column has that name
(always, when the names are pairwise distinct), and every bound value is a
scanned value of that row itself, never a pointer to a scan slot. -/
theorem ExecuteDynamicQuery_rows {V : Type} (db : DB V) (q : String) (args : List V)
    (rows : Rows V) (cols : List String) (vss : List (List V))
    (hq : db.QueryContext .background q args = .ok rows) (hc : rows.columns = .ok cols)
    (hp : rows.pending = vss.map Except.ok) (hlen : ∀ vs ∈ vss, vs.length = cols.length) :
    (ExecuteDynamicQuery db q args).err = rows.err ∧
    (ExecuteDynamicQuery db q args).results.length = vss.length ∧
    ∀ (k : Nat) (vs : List V), vss[k]? = some vs →
      ∃ m, (ExecuteDynamicQuery db q args).results[k]? = some m ∧
        (∀ (i : Nat) (c : String) (x : V), cols[i]? = some c → vs[i]? = some x →
          (∀ j, i < j → cols[j]? ≠ some c) → GoMap.get? m c = some (GoAny.val x)) ∧
        (cols.Nodup → ∀ (i : Nat) (c : String) (x : V), cols[i]? = some c →
          vs[i]? = some x → GoMap.get? m c = some (GoAny.val x)) ∧
        (∀ (c : String) (a : GoAny V), GoMap.get? m c = some a →
          (∃ x ∈ vs, a = GoAny.val x) ∧ ∀ n, a ≠ GoAny.ptr n) := by
  have hl := dynamic_loop_all cols rows.err vss (List.replicate cols.length GoAny.nil) []
    (by simp) hlen
  have hres : (ExecuteDynamicQuery db q args).results = vss.map (rowOf cols) := by
    simp [ExecuteDynamicQuery, hq, hc, hp, hl]
  refine ⟨?_, ?_, ?_⟩
  · simp [ExecuteDynamicQuery, hq, hc, hp, hl]
  · rw [hres]; simp
  · intro k vs hk
    refine ⟨rowOf cols vs, ?_, ?_, ?_, ?_⟩
    · rw [hres, List.getElem?_map, hk]; rfl
    · intro i c x hci hxi hlast
      exact rowOf_get? cols vs i c x hci hxi hlast
    · intro hnd i c x hci hxi
      refine rowOf_get? cols vs i c x hci hxi ?_
      intro j hij hcj
      obtain ⟨hi', hi''⟩ := List.getElem?_eq_some_iff.1 hci
      obtain ⟨hj', hj''⟩ := List.getElem?_eq_some_iff.1 hcj
      have := (List.Nodup.getElem_inj_iff hnd).1 (hi''.trans hj''.symm)
      omega
    · intro c a ha
      obtain ⟨x, hx, hxa⟩ := rowOf_get?_mem cols vs c a ha
      exact ⟨⟨x, hx, hxa⟩, fun n hn => by rw [hxa] at hn; cases hn⟩

/-- C7 at the query of the test suite's example, `full_name` of the first two
rows: two single-key mappings, in order. -/
theorem ExecuteDynamicQuery_rows_witness :
    (ExecuteDynamicQuery
      (constDB ⟨.ok ["full_name"],
        [.ok [Cell.text "fname_0 lname_0"], .ok [Cell.text "fname_1 lname_1"]], none⟩)
      "SELECT fname || ' ' || lname as full_name FROM test WHERE id < ?;"
      [Cell.int 3]).results.length = 2 :=
  (ExecuteDynamicQuery_rows
    (constDB ⟨.ok ["full_name"],
      [.ok [Cell.text "fname_0 lname_0"], .ok [Cell.text "fname_1 lname_1"]], none⟩)
    "SELECT fname || ' ' || lname as full_name FROM test WHERE id < ?;" [Cell.int 3]
    ⟨.ok ["full_name"],
      [.ok [Cell.text "fname_0 lname_0"], .ok [Cell.text "fname_1 lname_1"]], none⟩
    ["full_name"] [[Cell.text "fname_0 lname_0"], [Cell.text "fname_1 lname_1"]]
    rfl rfl rfl (by decide)).2.1

end Sqly
